import Mathlib

/-!
Verification of the reactive request/cache coordinator implemented in
`src/frontend/src/composables/apis.ts`.

The development shallowly embeds the coordinator's data model and operations:

* JavaScript values that can appear as request arguments are the inductive
  family `JVal`/`JArr`/`JObj` (objects are ordered key/value lists, exactly as
  a JS engine enumerates own properties in insertion order);
* `isEqual` embeds the lodash deep comparison used by the argument watcher;
* `jsonStringify` embeds `JSON.stringify`, used to derive the cache key;
* `resolveAndAdd`, `run`, the options merge of `useApi`/`useBaseItem` and the
  promise-resolution logic of `_sharedInternalLogic` are embedded as pure
  state-transition functions.

External collaborators (the api store, connectivity signals, UI sinks) are
out of scope of the source fragment; where their behaviour matters a
definition carries a `Modelled from the spec:` doc comment.
-/

set_option autoImplicit false

namespace Apis

mutual

/-- A JavaScript value as it can appear in a request-argument snapshot. -/
inductive JVal where
  | jnull : JVal
  | jbool : Bool → JVal
  | jnum : Int → JVal
  | jstr : String → JVal
  | jarr : JArr → JVal
  | jobj : JObj → JVal

/-- A JavaScript array of `JVal`s. -/
inductive JArr where
  | anil : JArr
  | acons : JVal → JArr → JArr

/-- A JavaScript object: own enumerable properties in insertion order. -/
inductive JObj where
  | onil : JObj
  | ocons : String → JVal → JObj → JObj

end

/-- First value stored under key `k`, i.e. JS property access `o[k]`
(JS objects have unique keys, so first = only). -/
def lookupKey (k : String) : JObj → Option JVal
  | .onil => none
  | .ocons k2 v fs => if k == k2 then some v else lookupKey k fs

/-- Whether key `k` occurs in the object. -/
def keyMemObj (k : String) : JObj → Bool
  | .onil => false
  | .ocons k2 _ fs => k == k2 || keyMemObj k fs

/-- Number of own properties. -/
def objLen : JObj → Nat
  | .onil => 0
  | .ocons _ _ fs => objLen fs + 1

mutual

/-- lodash `isEqual` (deep value comparison, used by the argument watcher at
apis.ts:284): scalars by value, arrays elementwise, objects by comparing the
number of own keys and looking every key of the left object up in the right
one, ignoring property order. -/
def isEqual : JVal → JVal → Bool
  | .jnull, .jnull => true
  | .jbool a, .jbool b => a == b
  | .jnum a, .jnum b => a == b
  | .jstr a, .jstr b => a == b
  | .jarr a, .jarr b => isEqualArr a b
  | .jobj a, .jobj b => objLen a == objLen b && isEqualFields a b
  | _, _ => false

/-- Elementwise deep comparison of arrays. -/
def isEqualArr : JArr → JArr → Bool
  | .anil, .anil => true
  | .acons x xs, .acons y ys => isEqual x y && isEqualArr xs ys
  | _, _ => false

/-- Every field of the left object is present in the right one with a
deep-equal value. -/
def isEqualFields : JObj → JObj → Bool
  | .onil, _ => true
  | .ocons k v fs, gs =>
    (match lookupKey k gs with
     | some w => isEqual v w
     | none => false) && isEqualFields fs gs

end

mutual

/-- `JSON.stringify`, as used to derive the serialized argument key
(`stringArgs`, apis.ts:207-209). Object properties are emitted in insertion
order, which is what makes the serialization order-sensitive. -/
def jsonStringify : JVal → String
  | .jnull => "null"
  | .jbool b => cond b "true" "false"
  | .jnum n => toString n
  | .jstr s => "\x22" ++ s ++ "\x22"
  | .jarr xs => "[" ++ jsonStringifyArr xs ++ "]"
  | .jobj fs => "\x7b" ++ jsonStringifyObj fs ++ "\x7d"

/-- Serialize the elements of an array. -/
def jsonStringifyArr : JArr → String
  | .anil => ""
  | .acons x xs => jsonStringify x ++ jsonStringifyRest xs

/-- Serialize the remaining elements of an array, each preceded by a comma. -/
def jsonStringifyRest : JArr → String
  | .anil => ""
  | .acons x xs => "," ++ jsonStringify x ++ jsonStringifyRest xs

/-- Serialize the fields of an object. -/
def jsonStringifyObj : JObj → String
  | .onil => ""
  | .ocons k v fs => "\x22" ++ k ++ "\x22:" ++ jsonStringify v ++ jsonStringifyObjRest fs

/-- Serialize the remaining fields of an object, each preceded by a comma. -/
def jsonStringifyObjRest : JObj → String
  | .onil => ""
  | .ocons k v fs => ",\x22" ++ k ++ "\x22:" ++ jsonStringify v ++ jsonStringifyObjRest fs

end

mutual

/-- Property-order alignment: two values list object keys in the same order
at every level (values are otherwise unconstrained). Deep equality plus
alignment pins the serialization down (see `isEqual_aligned_eq`). -/
def aligned : JVal → JVal → Bool
  | .jarr a, .jarr b => alignedArr a b
  | .jobj a, .jobj b => alignedObj a b
  | _, _ => true

/-- Arrays aligned elementwise. -/
def alignedArr : JArr → JArr → Bool
  | .anil, .anil => true
  | .acons x xs, .acons y ys => aligned x y && alignedArr xs ys
  | _, _ => false

/-- Objects with identical key sequences and aligned values. -/
def alignedObj : JObj → JObj → Bool
  | .onil, .onil => true
  | .ocons k v fs, .ocons k2 v2 gs => k == k2 && aligned v v2 && alignedObj fs gs
  | _, _ => false

end

mutual

/-- Well-formedness of a JS value: every object has duplicate-free keys
(guaranteed by the JS object model). -/
def wfJ : JVal → Bool
  | .jarr a => wfArr a
  | .jobj fs => wfObj fs
  | _ => true

/-- Well-formedness of an array. -/
def wfArr : JArr → Bool
  | .anil => true
  | .acons x xs => wfJ x && wfArr xs

/-- Well-formedness of an object: head key absent from the tail, all values
well-formed. -/
def wfObj : JObj → Bool
  | .onil => true
  | .ocons k v fs => !keyMemObj k fs && wfJ v && wfObj fs

end

/-- Inserting a binding for a key that does not occur among the left
object's keys does not change how the left object's fields look up in the
right one. -/
theorem isEqualFields_skip : (fs : JObj) → (k : String) → (v : JVal) → (gs : JObj) →
    keyMemObj k fs = false →
    isEqualFields fs (.ocons k v gs) = isEqualFields fs gs
  | .onil, _, _, _, _ => by simp [isEqualFields]
  | .ocons k2 v2 fs, k, v, gs, hk => by
    simp only [keyMemObj, Bool.or_eq_false_iff] at hk
    have hne : (k2 == k) = false := by
      rcases hk with ⟨h1, -⟩
      simpa [beq_eq_false_iff_ne, ne_comm] using h1
    simp only [isEqualFields, lookupKey, hne, Bool.false_eq_true, if_false]
    rw [isEqualFields_skip fs k v gs hk.2]

mutual

/-- Deep-equal (lodash) values whose objects list their keys in the same
order are literally identical (by well-formedness, keys are duplicate-free). -/
theorem isEqual_aligned_eq : (a b : JVal) → wfJ a = true → isEqual a b = true →
    aligned a b = true → a = b
  | .jnull, .jnull, _, _, _ => rfl
  | .jbool x, .jbool y, _, he, _ => by
    simp only [isEqual, beq_iff_eq] at he; rw [he]
  | .jnum x, .jnum y, _, he, _ => by
    simp only [isEqual, beq_iff_eq] at he; rw [he]
  | .jstr x, .jstr y, _, he, _ => by
    simp only [isEqual, beq_iff_eq] at he; rw [he]
  | .jarr x, .jarr y, hw, he, ha => by
    rw [isEqualArr_aligned_eq x y hw he ha]
  | .jobj fs, .jobj gs, hw, he, ha => by
    simp only [isEqual, Bool.and_eq_true] at he
    rw [isEqualFields_aligned_eq fs gs hw he.2 ha]
  | .jnull, .jbool _, _, he, _ | .jnull, .jnum _, _, he, _
  | .jnull, .jstr _, _, he, _ | .jnull, .jarr _, _, he, _
  | .jnull, .jobj _, _, he, _ | .jbool _, .jnull, _, he, _
  | .jbool _, .jnum _, _, he, _ | .jbool _, .jstr _, _, he, _
  | .jbool _, .jarr _, _, he, _ | .jbool _, .jobj _, _, he, _
  | .jnum _, .jnull, _, he, _ | .jnum _, .jbool _, _, he, _
  | .jnum _, .jstr _, _, he, _ | .jnum _, .jarr _, _, he, _
  | .jnum _, .jobj _, _, he, _ | .jstr _, .jnull, _, he, _
  | .jstr _, .jbool _, _, he, _ | .jstr _, .jnum _, _, he, _
  | .jstr _, .jarr _, _, he, _ | .jstr _, .jobj _, _, he, _
  | .jarr _, .jnull, _, he, _ | .jarr _, .jbool _, _, he, _
  | .jarr _, .jnum _, _, he, _ | .jarr _, .jstr _, _, he, _
  | .jarr _, .jobj _, _, he, _ | .jobj _, .jnull, _, he, _
  | .jobj _, .jbool _, _, he, _ | .jobj _, .jnum _, _, he, _
  | .jobj _, .jstr _, _, he, _ | .jobj _, .jarr _, _, he, _ => by
    simp [isEqual] at he

/-- Array version of `isEqual_aligned_eq`. -/
theorem isEqualArr_aligned_eq : (a b : JArr) → wfArr a = true →
    isEqualArr a b = true → alignedArr a b = true → a = b
  | .anil, .anil, _, _, _ => rfl
  | .anil, .acons _ _, _, he, _ => by simp [isEqualArr] at he
  | .acons _ _, .anil, _, he, _ => by simp [isEqualArr] at he
  | .acons x xs, .acons y ys, hw, he, ha => by
    simp only [isEqualArr, Bool.and_eq_true] at he
    simp only [alignedArr, Bool.and_eq_true] at ha
    simp only [wfArr, Bool.and_eq_true] at hw
    rw [isEqual_aligned_eq x y hw.1 he.1 ha.1,
      isEqualArr_aligned_eq xs ys hw.2 he.2 ha.2]

/-- Object version of `isEqual_aligned_eq`. -/
theorem isEqualFields_aligned_eq : (fs gs : JObj) → wfObj fs = true →
    isEqualFields fs gs = true → alignedObj fs gs = true → fs = gs
  | .onil, .onil, _, _, _ => rfl
  | .onil, .ocons _ _ _, _, _, ha => by simp [alignedObj] at ha
  | .ocons _ _ _, .onil, _, _, ha => by simp [alignedObj] at ha
  | .ocons k v fs, .ocons k2 v2 gs, hw, he, ha => by
    simp only [alignedObj, Bool.and_eq_true, beq_iff_eq] at ha
    obtain ⟨⟨hkk, hav⟩, ha'⟩ := ha
    subst hkk
    simp only [wfObj, Bool.and_eq_true, Bool.not_eq_true'] at hw
    obtain ⟨⟨hkm, hwv⟩, hw'⟩ := hw
    simp only [isEqualFields, lookupKey, beq_self_eq_true, if_true,
      Bool.and_eq_true] at he
    obtain ⟨hev, he'⟩ := he
    rw [isEqualFields_skip fs k v2 gs hkm] at he'
    rw [isEqual_aligned_eq v v2 hwv hev hav,
      isEqualFields_aligned_eq fs gs hw' he' ha']

end

/-- Overwrite the value of every occurrence of key `k` (JS spread on an
existing key keeps the key's position and replaces its value). -/
def replaceKey (k : String) (v : JVal) : JObj → JObj
  | .onil => .onil
  | .ocons k2 v2 fs =>
    if k == k2 then .ocons k2 v (replaceKey k v fs)
    else .ocons k2 v2 (replaceKey k v fs)

/-- Append a fresh binding at the end (JS spread on a new key appends it). -/
def appendKey : JObj → String → JVal → JObj
  | .onil, k, v => .ocons k v .onil
  | .ocons k2 v2 fs, k, v => .ocons k2 v2 (appendKey fs k v)

/-- JS object-literal/spread assignment of one property: replace in place if
the key exists, append otherwise. -/
def setKey (fs : JObj) (k : String) (v : JVal) : JObj :=
  if keyMemObj k fs then replaceKey k v fs else appendKey fs k v

theorem lookupKey_replaceKey_self : (fs : JObj) → (k : String) → (v : JVal) →
    keyMemObj k fs = true → lookupKey k (replaceKey k v fs) = some v
  | .onil, k, v, hm => by simp [keyMemObj] at hm
  | .ocons k2 v2 fs, k, v, hm => by
    by_cases h : (k == k2) = true
    · simp [replaceKey, lookupKey, h]
    · simp only [keyMemObj, h, Bool.false_or] at hm
      simp only [replaceKey, h, Bool.false_eq_true, if_false, lookupKey]
      exact lookupKey_replaceKey_self fs k v hm

theorem lookupKey_replaceKey_other : (fs : JObj) → (k k2 : String) → (v : JVal) →
    (k == k2) = false → lookupKey k (replaceKey k2 v fs) = lookupKey k fs
  | .onil, _, _, _, _ => by simp [replaceKey, lookupKey]
  | .ocons k3 v3 fs, k, k2, v, hne => by
    by_cases h : (k2 == k3) = true
    · have hne3 : (k == k3) = false := by
        have : k2 = k3 := by simpa [beq_iff_eq] using h
        simpa [this] using hne
      simp only [replaceKey, h, if_true, lookupKey, hne3, Bool.false_eq_true,
        if_false]
      exact lookupKey_replaceKey_other fs k k2 v hne
    · simp only [replaceKey, h, Bool.false_eq_true, if_false, lookupKey]
      by_cases h3 : (k == k3) = true
      · simp [h3]
      · simp only [h3, Bool.false_eq_true, if_false]
        exact lookupKey_replaceKey_other fs k k2 v hne

theorem lookupKey_appendKey_self : (fs : JObj) → (k : String) → (v : JVal) →
    keyMemObj k fs = false → lookupKey k (appendKey fs k v) = some v
  | .onil, k, v, _ => by simp [appendKey, lookupKey]
  | .ocons k2 v2 fs, k, v, hm => by
    simp only [keyMemObj, Bool.or_eq_false_iff] at hm
    simp only [appendKey, lookupKey, hm.1, Bool.false_eq_true, if_false]
    exact lookupKey_appendKey_self fs k v hm.2

theorem lookupKey_appendKey_other : (fs : JObj) → (k k2 : String) → (v : JVal) →
    (k == k2) = false → lookupKey k (appendKey fs k2 v) = lookupKey k fs
  | .onil, k, k2, v, hne => by simp [appendKey, lookupKey, hne]
  | .ocons k3 v3 fs, k, k2, v, hne => by
    simp only [appendKey, lookupKey]
    by_cases h3 : (k == k3) = true
    · simp [h3]
    · simp only [h3, Bool.false_eq_true, if_false]
      exact lookupKey_appendKey_other fs k k2 v hne

/-- Looking up the key just assigned yields the assigned value. -/
theorem lookupKey_setKey_self (fs : JObj) (k : String) (v : JVal) :
    lookupKey k (setKey fs k v) = some v := by
  unfold setKey
  by_cases h : keyMemObj k fs = true
  · simp only [h, if_true]
    exact lookupKey_replaceKey_self fs k v h
  · simp only [Bool.not_eq_true] at h
    simp only [h, Bool.false_eq_true, if_false]
    exact lookupKey_appendKey_self fs k v h

/-- Assigning one key leaves every other key's lookup unchanged. -/
theorem lookupKey_setKey_other (fs : JObj) (k k2 : String) (v : JVal)
    (hne : k ≠ k2) : lookupKey k (setKey fs k2 v) = lookupKey k fs := by
  have hb : (k == k2) = false := by simpa [beq_eq_false_iff_ne] using hne
  unfold setKey
  by_cases h : keyMemObj k2 fs = true
  · simp only [h, if_true]
    exact lookupKey_replaceKey_other fs k k2 v hb
  · simp only [Bool.not_eq_true] at h
    simp only [h, Bool.false_eq_true, if_false]
    exact lookupKey_appendKey_other fs k k2 v hb

/-! ## Parameter injection (`resolveAndAdd`, apis.ts:152-162)

The outgoing call's first argument is
`{ ...args[0], ...(currentUserId && { userId }), fields, enableImageTypes,
enableImages: true, enableTotalRecordCount: false }`: the literal keys are
assigned after the spread of `args[0]`, so they override caller values.
`fieldsVal`/`imagesVal` stand for the store's canonical
`apiStore.apiEnums.fields` / `apiStore.apiEnums.images` configuration. -/

/-- The four unconditional literal-key assignments of the extended first
parameter: `fields`, `enableImageTypes`, `enableImages: true`,
`enableTotalRecordCount: false`, in source order. -/
def extendedCore (withUser : JObj) (fieldsVal imagesVal : JVal) : JObj :=
  setKey (setKey (setKey (setKey withUser "fields" fieldsVal)
    "enableImageTypes" imagesVal) "enableImages" (.jbool true))
    "enableTotalRecordCount" (.jbool false)

/-- First element of `extendedParams`: the caller's first argument extended
with the injected standard parameters (`userId` only when a current user
identifier is present, i.e. truthy). -/
def extendedFirstParam (arg0 : JObj) (currentUserId : Option JVal)
    (fieldsVal imagesVal : JVal) : JObj :=
  extendedCore
    (match currentUserId with
     | some uid => setKey arg0 "userId" uid
     | none => arg0)
    fieldsVal imagesVal

theorem extendedCore_lookup_fields (w : JObj) (f i : JVal) :
    lookupKey "fields" (extendedCore w f i) = some f := by
  unfold extendedCore
  rw [lookupKey_setKey_other _ _ _ _ (by decide),
    lookupKey_setKey_other _ _ _ _ (by decide),
    lookupKey_setKey_other _ _ _ _ (by decide), lookupKey_setKey_self]

theorem extendedCore_lookup_imageTypes (w : JObj) (f i : JVal) :
    lookupKey "enableImageTypes" (extendedCore w f i) = some i := by
  unfold extendedCore
  rw [lookupKey_setKey_other _ _ _ _ (by decide),
    lookupKey_setKey_other _ _ _ _ (by decide), lookupKey_setKey_self]

theorem extendedCore_lookup_enableImages (w : JObj) (f i : JVal) :
    lookupKey "enableImages" (extendedCore w f i) = some (.jbool true) := by
  unfold extendedCore
  rw [lookupKey_setKey_other _ _ _ _ (by decide), lookupKey_setKey_self]

theorem extendedCore_lookup_totalRecordCount (w : JObj) (f i : JVal) :
    lookupKey "enableTotalRecordCount" (extendedCore w f i) =
      some (.jbool false) := by
  unfold extendedCore
  rw [lookupKey_setKey_self]

theorem extendedCore_lookup_other (w : JObj) (f i : JVal) (k : String)
    (h1 : k ≠ "fields") (h2 : k ≠ "enableImageTypes")
    (h3 : k ≠ "enableImages") (h4 : k ≠ "enableTotalRecordCount") :
    lookupKey k (extendedCore w f i) = lookupKey k w := by
  unfold extendedCore
  rw [lookupKey_setKey_other _ _ _ _ h4, lookupKey_setKey_other _ _ _ _ h3,
    lookupKey_setKey_other _ _ _ _ h2, lookupKey_setKey_other _ _ _ _ h1]

/-! ## Composable options (apis.ts:97-103, 383, 442)

`useApi`/`useBaseItem` merge caller options as
`ops ? { ...ops, ...defaultOps } : defaultOps` — the frozen defaults are
spread *after* the caller's object. -/

/-- The `skipCache` object of the frozen `defaultOps`. -/
def skipCacheDefaults : JObj :=
  .ocons "baseItem" (.jbool false) (.ocons "request" (.jbool false) .onil)

/-- The frozen `defaultOps` object (apis.ts:97-103). -/
def defaultOps : JObj :=
  .ocons "globalLoading" (.jbool true)
    (.ocons "skipCache" (.jobj skipCacheDefaults) .onil)

/-- JS object spread `{ ...a, ...b }`: assign each property of `b` onto `a`
in order. -/
def objSpread (a : JObj) : JObj → JObj
  | .onil => a
  | .ocons k v rest => objSpread (setKey a k v) rest

/-- The options object the coordinator actually receives:
`ops ? { ...ops, ...defaultOps } : defaultOps` (apis.ts:383 and 442). -/
def mergedOps : Option JObj → JObj
  | none => defaultOps
  | some o => objSpread o defaultOps

/-- The `skipCache.request` flag as read from the effective options
(absent or non-boolean means falsy). -/
def effectiveSkipRequest (callerOps : Option JObj) : Bool :=
  match lookupKey "skipCache" (mergedOps callerOps) with
  | some (.jobj sc) =>
    match lookupKey "request" sc with
    | some (.jbool b) => b
    | _ => false
  | _ => false

/-- The `skipCache.baseItem` flag as read from the effective options. -/
def effectiveSkipBaseItem (callerOps : Option JObj) : Bool :=
  match lookupKey "skipCache" (mergedOps callerOps) with
  | some (.jobj sc) =>
    match lookupKey "baseItem" sc with
    | some (.jbool b) => b
    | _ => false
  | _ => false

/-! ## `resolveAndAdd` (apis.ts:140-189)

The request attempt: start loading, await the SDK call, on a payload extract
`Items` when present, feed the entity cache and the request cache, and on
rejection set the failure sentinel — all wrapped in
`try ... catch { loading.value = undefined } finally { stopLoading(...) }`.
The loading signal is `Option Bool`: `some true` in-flight, `some false`
idle, `none` is the JS `undefined` failure sentinel. The global loading
indicator and the snackbar are fire-and-forget UI sinks and carry no state
observable by this fragment, so they are not modelled. -/

/-- `startLoading` (apis.ts:110-116): sets the signal to `true`. -/
def startLoading (_loading : Option Bool) : Option Bool := some true

/-- `stopLoading` (apis.ts:123-129): sets the signal to `false`. -/
def stopLoading (_loading : Option Bool) : Option Bool := some false

/-- Result extraction (apis.ts:172): if the response body has an `Items`
array, use it, otherwise use the body itself. -/
def extractItems (d : JVal) : JVal :=
  match d with
  | .jobj fs =>
    match lookupKey "Items" fs with
    | some (.jarr xs) => .jarr xs
    | _ => d
  | _ => d

/-- Outcome of the awaited SDK call: the promise rejects, or resolves with a
`response.data` payload (`none` models a falsy/absent body). -/
inductive ApiOutcome where
  | rejected : ApiOutcome
  | resolved : Option JVal → ApiOutcome

/-- Everything `resolveAndAdd` leaves behind for one attempt. -/
structure ResolveOutcome where
  loading : Option Bool
  requestAdded : Bool
  baseItemAdded : Bool
  returnedValue : Option JVal
  raisedToCaller : Bool

/-- One `resolveAndAdd` attempt (apis.ts:164-188). On rejection the `catch`
writes the sentinel and the `finally` then runs `stopLoading` over it. -/
def resolveAndAdd (ofBaseItem skipBaseItem skipRequest : Bool)
    (outcome : ApiOutcome) : ResolveOutcome :=
  let loading0 := startLoading (some false)
  match outcome with
  | .rejected =>
    let loadingCaught : Option Bool := none
    { loading := stopLoading loadingCaught, requestAdded := false,
      baseItemAdded := false, returnedValue := none, raisedToCaller := false }
  | .resolved none =>
    { loading := stopLoading loading0, requestAdded := false,
      baseItemAdded := false, returnedValue := none, raisedToCaller := false }
  | .resolved (some d) =>
    let result := extractItems d
    { loading := stopLoading loading0,
      requestAdded := !skipRequest,
      baseItemAdded := ofBaseItem && !skipBaseItem,
      returnedValue := if skipRequest then some result else none,
      raisedToCaller := false }

/-! ## Promise resolution (`_sharedInternalLogic`, apis.ts:301-325) -/

/-- Guard of the `watch(isCached, ...)` callback that resolves the returned
promise (apis.ts:318): the cache must be populated for the key *and*
`skipCache.request` must be unset. -/
def resolveGuard (isCachedNow skipRequest : Bool) : Bool :=
  isCachedNow && !skipRequest

/-- Whether the promise returned for an uncached invocation settles once the
first request attempt completes: after `await run()` the `immediate`, `sync`
watch evaluates `resolveGuard` on the cache state the attempt produced
(starting from an empty cache, the key is present exactly when the attempt
performed `requestAdd`). -/
def firstAttemptSettles (callerOps : Option JObj) (ofBaseItem : Bool)
    (outcome : ApiOutcome) : Bool :=
  let sk := effectiveSkipRequest callerOps
  let e := resolveAndAdd ofBaseItem (effectiveSkipBaseItem callerOps) sk outcome
  resolveGuard e.requestAdded sk

/-! ## The `cachedData` computed as a trace (apis.ts:213-216)

`cachedData` keeps its previous value while `loading` is truthy or nil and
re-reads `apiStore.getCachedRequest` only when `loading` is exactly `false`.
We model discrete observation instants `0, 1, 2, …`; `stored n` is the cache
store's entry for the derived key at instant `n`. -/

/-- Value of the `cachedData` computed at instant `n`. -/
def cachedDataAt (loading : Nat → Option Bool) (stored : Nat → Option JVal) :
    Nat → Option JVal
  | 0 => if loading 0 = some false then stored 0 else none
  | n + 1 =>
    if loading (n + 1) = some false then stored (n + 1)
    else cachedDataAt loading stored n

/-- `isCached` at instant `n` (apis.ts:216). -/
def isCachedAt (loading : Nat → Option Bool) (stored : Nat → Option JVal)
    (n : Nat) : Bool :=
  (cachedDataAt loading stored n).isSome

/-- Whether the synchronous `watch(isCached, ...)` resolves the promise at
instant `n` (apis.ts:317-322). -/
def promiseResolveFires (loading : Nat → Option Bool)
    (stored : Nat → Option JVal) (skipRequest : Bool) (n : Nat) : Bool :=
  resolveGuard (isCachedAt loading stored n) skipRequest

/-! ## `run` and the offline queue (apis.ts:235-268) -/

/-- A queued offline call (`OfflineParams`, apis.ts:69-73). -/
structure PendingCall where
  apiName : String
  methodName : String
  args : JArr

/-- The mutable context `run` works on: the queue, `argsRef`, and the
(possibly reactive, possibly undefined) endpoint-factory and method name. -/
structure RunState where
  offlineParams : List PendingCall
  currentArgs : Option JArr
  apiName : Option String
  methodName : Option String

/-- `isFuncDefined` (apis.ts:201): both the endpoint-factory and the method
name references are defined. -/
def isFuncDefined (st : RunState) : Bool :=
  st.apiName.isSome && st.methodName.isSome

/-- What one `run` invocation did: the successor state, the queued calls it
replayed (one `resolveAndAdd` dispatch each, fire-and-forget), and whether
it dispatched the main request. -/
structure RunResult where
  state : RunState
  replayedCalls : List PendingCall
  mainRequestDispatched : Bool

/-- One `run(onlyPending)` invocation (apis.ts:235-268): return early when
endpoint or method is undefined; otherwise replay and clear the offline
queue, then — unless `onlyPending` — either dispatch the main request (when
the network and the session socket are both up) or enqueue a `PendingCall`
(the snackbar warning is a stateless UI sink). -/
def run (onlyPending isOnline socketConnected : Bool) (st : RunState) :
    RunResult :=
  match st.apiName, st.methodName with
  | some a, some m =>
    let replayed := st.offlineParams
    let st1 := { st with offlineParams := ([] : List PendingCall) }
    if onlyPending then
      { state := st1, replayedCalls := replayed, mainRequestDispatched := false }
    else
      match st.currentArgs with
      | some args =>
        if isOnline && socketConnected then
          { state := st1, replayedCalls := replayed,
            mainRequestDispatched := true }
        else
          { state := { st1 with offlineParams :=
              [{ apiName := a, methodName := m, args := args }] },
            replayedCalls := replayed, mainRequestDispatched := false }
      | none =>
        { state := st1, replayedCalls := replayed,
          mainRequestDispatched := false }
  | _, _ => { state := st, replayedCalls := [], mainRequestDispatched := false }

/-! ## Invocation view (`_sharedInternalLogic`'s returned closure,
apis.ts:270-328) -/

/-- Modelled from the spec: `apiStore.getRequest(entry)` returns the value
stored in a cache entry (§6 "Cache store"); on an absent entry it yields
undefined. The entry is identified with its stored value. -/
def getRequest : Option JVal → Option JVal
  | none => none
  | some e => some e

/-- The `data` computed (apis.ts:217-229). `itemLookup` abstracts the store's
`getItemById`/`getItemsById` derivation used on the `skipCache.request` path
(modelled from the spec, §6 "Cache store"); on the normal path `data` is
`getRequest(cachedData)`. -/
def dataView (skipRequest ofBaseItem : Bool) (itemLookup : JVal → Option JVal)
    (resultVal cachedEntry : Option JVal) : Option JVal :=
  match skipRequest, resultVal with
  | true, some r => if ofBaseItem then itemLookup r else some r
  | _, _ => getRequest cachedEntry

/-- The `cachedData` computed can only be populated if the store actually
held an entry for the key at some instant at or before `n` (the computed
starts out undefined and only ever copies store reads). -/
theorem cachedDataAt_isSome_implies (loading : Nat → Option Bool)
    (stored : Nat → Option JVal) :
    ∀ n, (cachedDataAt loading stored n).isSome = true →
      ∃ m, m ≤ n ∧ (stored m).isSome = true := by
  intro n
  induction n with
  | zero =>
    intro h
    by_cases hL : loading 0 = some false
    · exact ⟨0, Nat.le_refl 0, by simpa [cachedDataAt, hL] using h⟩
    · simp [cachedDataAt, hL] at h
  | succ n ih =>
    intro h
    by_cases hL : loading (n + 1) = some false
    · exact ⟨n + 1, Nat.le_refl _, by simpa [cachedDataAt, hL] using h⟩
    · obtain ⟨m, hm, hs⟩ := ih (by simpa [cachedDataAt, hL] using h)
      exact ⟨m, Nat.le_trans hm (Nat.le_succ n), hs⟩

/-- What an invocation of the composable's returned closure yields
synchronously. -/
structure InvokeView where
  returnsSynchronously : Bool
  refreshScheduled : Bool
  dataAtInvoke : Option JVal

/-- Synchronous part of one invocation (apis.ts:295-327): `loading` starts
at `false`, so `cachedData` reads the store entry; a populated cache
schedules the deferred refresh (`setTimeout`) and skips the pending promise;
an empty cache with a defined endpoint/method returns the promise instead.
`storeEntry` is the store's entry under the derived key at invocation time. -/
def invoke (storeEntry : Option JVal) (funcDefined skipRequest ofBaseItem : Bool)
    (itemLookup : JVal → Option JVal) : InvokeView :=
  let loading0 : Option Bool := some false
  let cachedData0 : Option JVal :=
    if loading0 = some false then storeEntry else none
  let isCached0 := cachedData0.isSome
  { returnsSynchronously := !(!isCached0 && funcDefined)
  , refreshScheduled := isCached0
  , dataAtInvoke := dataView skipRequest ofBaseItem itemLookup none cachedData0 }

/-! ## The argument watcher (apis.ts:278-288) -/

/-- `normalizedArgs.every((a, index) => isEqual(a, toValue(oldVal?.[index])))`:
elementwise deep comparison of the new snapshot against the old one (a
missing old element is `undefined` and compares unequal). -/
def everyEq : JArr → JArr → Bool
  | .anil, _ => true
  | .acons x xs, .acons y ys => isEqual x y && everyEq xs ys
  | .acons _ _, .anil => false

/-- One firing of the argument watcher (apis.ts:278-288): when the new
snapshot is elementwise deep-equal to the old one nothing happens; otherwise
`argsRef` is updated and a request is triggered (`runNormally`). Returns the
new `argsRef` value and whether a request was triggered. -/
def watcherStep (newArgs oldArgs : JArr) (argsRefVal : Option JArr) :
    Option JArr × Bool :=
  if everyEq newArgs oldArgs then (argsRefVal, false)
  else (some newArgs, true)

/-! ## Concrete values used by witnesses and counterexamples -/

/-- The object `\x7b a: 1, b: 2 \x7d`. -/
def objAB : JVal := .jobj (.ocons "a" (.jnum 1) (.ocons "b" (.jnum 2) .onil))

/-- The deep-equal object `\x7b b: 2, a: 1 \x7d` with the opposite property
insertion order. -/
def objBA : JVal := .jobj (.ocons "b" (.jnum 2) (.ocons "a" (.jnum 1) .onil))

/-- A one-argument snapshot holding `objAB`. -/
def snapAB : JArr := .acons objAB .anil

/-- A one-argument snapshot holding `objBA`. -/
def snapBA : JArr := .acons objBA .anil

/-- A snapshot whose single argument differs in value from `objAB`. -/
def snapOther : JArr := .acons (.jnum 3) .anil

/-- Caller options opting out of the request cache:
`\x7b skipCache: \x7b request: true \x7d \x7d`. -/
def skipRequestCallerOps : JObj :=
  .ocons "skipCache" (.jobj (.ocons "request" (.jbool true) .onil)) .onil

/-- A queued offline call. -/
def pendingReplayCall : PendingCall :=
  { apiName := "getUserLibraryApi", methodName := "getItem", args := .anil }

/-- A coordinator state with one queued call whose endpoint-factory
reference has become undefined. -/
def offlineStateNoApi : RunState :=
  { offlineParams := [pendingReplayCall], currentArgs := none,
    apiName := none, methodName := some "getItem" }

/-- A loading-signal trace that stays idle. -/
def wLoading : Nat → Option Bool := fun _ => some false

/-- A cache-store trace for the derived key: empty at instant 0, populated
from instant 1 on. -/
def wStored : Nat → Option JVal := fun n => if n = 0 then none else some .jnull

/-- A caller first argument that already carries a `fields` value (to be
overridden) and an unrelated `ids` key (to be preserved). -/
def callerArg0 : JObj :=
  .ocons "ids" (.jarr .anil) (.ocons "fields" (.jstr "none") .onil)

/-! ## The claims -/

/-- C1: the code's behaviour at the failing input. The claim says a rejected
request leaves the loading signal equal to the failure sentinel `undefined`.
In the code the `catch` block does write the sentinel, but the `finally`
block then runs `stopLoading`, which overwrites it with `false`: after a
rejected attempt the loading signal is `false` (`some false`), not the
sentinel (`none`). The error is indeed swallowed (nothing reaches the
caller). This contradicts the doc comments at apis.ts:376 and 435
("Undefined if there was an error"), so the code, not the claim, is wrong. -/
theorem resolveAndAdd_rejected_leaves_loading_false :
    (resolveAndAdd true false false .rejected).raisedToCaller = false
    ∧ (resolveAndAdd true false false .rejected).loading = some false
    ∧ (resolveAndAdd true false false .rejected).loading ≠ none :=
  ⟨rfl, rfl, by decide⟩

/-- C2: the code's behaviour at the failing input. The claim says that when
the caller opts to skip the request cache, the returned promise settles
after the first attempt, success or failure. In the code the caller's option
is discarded by the merge `{ ...ops, ...defaultOps }`, so the effective
`skipCache.request` is `false` and a failed first attempt (no `requestAdd`)
leaves the resolve guard false: the promise does not settle. Moreover even
an honoured skip flag could never settle the promise, because the resolve
guard at apis.ts:318 requires `!ops.skipCache.request`. This contradicts the
useApi doc comment at apis.ts:413-415, which scopes never-resolving to
`skipCache = false`. -/
theorem skipCache_promise_unsettled_after_failure :
    firstAttemptSettles (some skipRequestCallerOps) false .rejected = false
    ∧ resolveGuard true true = false :=
  ⟨by decide, by decide⟩

/-- C3: for an uncached invocation with caching not skipped, the promise's
resolve only ever fires at an instant by which the cache store has held an
entry for the derived key (it can never settle before the cache is
populated), and as soon as the store holds the entry while the loading
signal is idle — which the code reaches synchronously after `requestAdd`,
when the `finally` sets loading to `false` and the `sync` watch runs — the
resolve fires. -/
theorem promise_waits_for_cache (loading : Nat → Option Bool)
    (stored : Nat → Option JVal) (n : Nat) :
    (promiseResolveFires loading stored false n = true →
      ∃ m, m ≤ n ∧ (stored m).isSome = true)
    ∧ ((stored n).isSome = true → loading n = some false →
      promiseResolveFires loading stored false n = true) := by
  constructor
  · intro h
    refine cachedDataAt_isSome_implies loading stored n ?_
    simpa [promiseResolveFires, resolveGuard, isCachedAt] using h
  · intro h1 h2
    cases n with
    | zero => simp [promiseResolveFires, resolveGuard, isCachedAt,
        cachedDataAt, h1, h2]
    | succ n => simp [promiseResolveFires, resolveGuard, isCachedAt,
        cachedDataAt, h1, h2]

/-- C3 witness: with an idle loading trace and a store that gains the entry
at instant 1, the resolve fires at instant 1 and the store indeed held the
entry by then. -/
theorem promise_waits_for_cache_witness :
    (∃ m, m ≤ 1 ∧ (wStored m).isSome = true)
    ∧ promiseResolveFires wLoading wStored false 1 = true :=
  ⟨(promise_waits_for_cache wLoading wStored 1).1 (by decide),
   (promise_waits_for_cache wLoading wStored 1).2 (by decide) (by decide)⟩

/-- C4 counterexample: the snapshots `\x7b a: 1, b: 2 \x7d` and
`\x7b b: 2, a: 1 \x7d` are deep-equal in the coordinator's comparison, yet
`JSON.stringify` serializes them to different key strings, because it emits
properties in insertion order. The claimed invariant ("equal argument values
must serialize identically regardless of property insertion order") fails. -/
theorem stringArgs_order_sensitive :
    isEqual objAB objBA = true ∧ jsonStringify objAB ≠ jsonStringify objBA :=
  ⟨by decide, by decide⟩

/-- C4 (amended): deep-equal argument snapshots serialize to the identical
cache-key string provided their objects also list their properties in the
same insertion order (object identity still does not matter); with differing
insertion orders the serializations can differ. -/
theorem isEqual_aligned_jsonStringify_eq (a b : JVal) (hw : wfJ a = true)
    (he : isEqual a b = true) (ha : aligned a b = true) :
    jsonStringify a = jsonStringify b := by
  rw [isEqual_aligned_eq a b hw he ha]

/-- C4 witness: the amended theorem applied at a concrete snapshot. -/
theorem isEqual_aligned_jsonStringify_eq_witness :
    wfJ objAB = true ∧ isEqual objAB objAB = true
    ∧ aligned objAB objAB = true
    ∧ jsonStringify objAB = jsonStringify objAB :=
  ⟨by decide, by decide, by decide,
   isEqual_aligned_jsonStringify_eq objAB objAB (by decide) (by decide)
     (by decide)⟩

/-- C5 counterexample: the network-online trigger runs `run(true)`, which
returns before the replay block whenever the endpoint-factory or the method
name reference is undefined (apis.ts:239-241). In a state with one queued
call and an undefined endpoint-factory, the false-to-true transition replays
nothing and leaves the queue intact, refuting "exactly one replay attempt
per queued call and an empty queue afterward". -/
theorem online_replay_skipped_without_endpoint :
    (run true true true offlineStateNoApi).replayedCalls = []
    ∧ (run true true true offlineStateNoApi).state.offlineParams =
        [pendingReplayCall]
    ∧ ([] : List PendingCall) ≠ [pendingReplayCall] :=
  ⟨rfl, rfl, by simp⟩

/-- C5 (amended): whenever the network-online signal transitions from false
to true while `n` PendingCalls are queued *and the endpoint-factory and
method name are both defined at that moment*, exactly one replay attempt is
dispatched per queued call (the dispatched list is the queue itself, in
order), the queue is empty immediately afterward, and no main request is
dispatched by this trigger; the replays are fire-and-forget, so this holds
independently of their outcomes. -/
theorem online_replay_flushes_queue (a m : String) (q : List PendingCall)
    (args : Option JArr) (sock : Bool) :
    run true true sock ⟨q, args, some a, some m⟩ =
      ⟨⟨[], args, some a, some m⟩, q, false⟩ := rfl

/-- C6: a watcher firing whose newly evaluated snapshot is elementwise
deep-equal to the previous one triggers no request and leaves the recorded
current arguments unchanged; a snapshot differing in value updates the
recorded arguments and triggers a request. -/
theorem watcher_requests_iff_changed (newArgs oldArgs : JArr)
    (cur : Option JArr) :
    (everyEq newArgs oldArgs = true →
      watcherStep newArgs oldArgs cur = (cur, false))
    ∧ (everyEq newArgs oldArgs = false →
      watcherStep newArgs oldArgs cur = (some newArgs, true)) := by
  constructor <;> intro h <;> simp [watcherStep, h]

/-- C6 witness: a snapshot deep-equal to the old one up to object property
order triggers nothing, while a value change triggers a request. -/
theorem watcher_requests_iff_changed_witness :
    watcherStep snapAB snapBA none = (none, false)
    ∧ watcherStep snapAB snapOther none = (some snapAB, true) :=
  ⟨(watcher_requests_iff_changed snapAB snapBA none).1 (by decide),
   (watcher_requests_iff_changed snapAB snapOther none).2 (by decide)⟩

/-- C7: when the store already holds an entry under the derived key, the
invocation returns the handle synchronously (the pending-promise branch is
skipped), `data` is derived from the cached entry before any network
round-trip, and the deferred refresh is still scheduled. -/
theorem cached_invocation_synchronous (e : JVal) (funcDefined ofBaseItem : Bool)
    (itemLookup : JVal → Option JVal) :
    invoke (some e) funcDefined false ofBaseItem itemLookup =
      { returnsSynchronously := true, refreshScheduled := true,
        dataAtInvoke := some e } := rfl

/-- C8: with the endpoint-factory or the method name undefined, the
invocation returns the handle immediately (no pending promise), schedules
no refresh, `data` is undefined, every subsequent trigger of `run` — in any
state in which either reference is undefined — leaves the state untouched
and dispatches nothing (neither a replay nor a main request), and the
`data` view stays undefined while no result and no cache entry exist. -/
theorem undefined_endpoint_inert (sr ob : Bool) (il : JVal → Option JVal)
    (onlyP online sock : Bool) (st : RunState)
    (h : isFuncDefined st = false) :
    invoke none false sr ob il = ⟨true, false, none⟩
    ∧ run onlyP online sock st = ⟨st, [], false⟩
    ∧ dataView sr ob il none none = none := by
  obtain ⟨q, args, an, mn⟩ := st
  refine ⟨by cases sr <;> rfl, ?_, by cases sr <;> rfl⟩
  cases an with
  | none => cases mn <;> rfl
  | some a =>
    cases mn with
    | none => rfl
    | some m => simp [isFuncDefined] at h

/-- C8 witness: the theorem applied in the state whose endpoint-factory is
defined but whose method name is undefined. -/
theorem undefined_endpoint_inert_witness :
    isFuncDefined ⟨[], none, some "getUserLibraryApi", none⟩ = false
    ∧ invoke none false false false (fun _ => none) = ⟨true, false, none⟩
    ∧ run false true true ⟨[], none, some "getUserLibraryApi", none⟩ =
      ⟨⟨[], none, some "getUserLibraryApi", none⟩, [], false⟩
    ∧ dataView false false (fun _ => none) none none = none :=
  ⟨rfl,
   (undefined_endpoint_inert false false (fun _ => none) false true true
     ⟨[], none, some "getUserLibraryApi", none⟩ rfl).1,
   (undefined_endpoint_inert false false (fun _ => none) false true true
     ⟨[], none, some "getUserLibraryApi", none⟩ rfl).2.1,
   (undefined_endpoint_inert false false (fun _ => none) false true true
     ⟨[], none, some "getUserLibraryApi", none⟩ rfl).2.2⟩

/-- C9: the first argument of every dispatched call is the caller's first
argument extended with the canonical field list, the canonical image-type
list, `enableImages: true`, `enableTotalRecordCount: false`, and the current
user identifier when present; the injected values override caller-supplied
values for the same keys, and every other caller key is preserved. -/
theorem extendedFirstParam_injects (arg0 : JObj) (uid : Option JVal)
    (fieldsVal imagesVal : JVal) :
    lookupKey "fields" (extendedFirstParam arg0 uid fieldsVal imagesVal) =
      some fieldsVal
    ∧ lookupKey "enableImageTypes"
        (extendedFirstParam arg0 uid fieldsVal imagesVal) = some imagesVal
    ∧ lookupKey "enableImages"
        (extendedFirstParam arg0 uid fieldsVal imagesVal) = some (.jbool true)
    ∧ lookupKey "enableTotalRecordCount"
        (extendedFirstParam arg0 uid fieldsVal imagesVal) =
      some (.jbool false)
    ∧ (∀ u, uid = some u →
        lookupKey "userId" (extendedFirstParam arg0 uid fieldsVal imagesVal) =
          some u)
    ∧ (∀ k, k ≠ "userId" → k ≠ "fields" → k ≠ "enableImageTypes" →
        k ≠ "enableImages" → k ≠ "enableTotalRecordCount" →
        lookupKey k (extendedFirstParam arg0 uid fieldsVal imagesVal) =
          lookupKey k arg0) := by
  unfold extendedFirstParam
  refine ⟨extendedCore_lookup_fields _ _ _,
    extendedCore_lookup_imageTypes _ _ _,
    extendedCore_lookup_enableImages _ _ _,
    extendedCore_lookup_totalRecordCount _ _ _, ?_, ?_⟩
  · intro u hu
    subst hu
    rw [extendedCore_lookup_other _ _ _ _ (by decide) (by decide) (by decide)
      (by decide)]
    exact lookupKey_setKey_self arg0 "userId" u
  · intro k h0 h1 h2 h3 h4
    rw [extendedCore_lookup_other _ _ _ _ h1 h2 h3 h4]
    cases uid with
    | none => rfl
    | some u => exact lookupKey_setKey_other arg0 k "userId" u h0

/-- C9 witness: the theorem applied to a caller argument that already sets
`fields` (overridden) and an unrelated `ids` key (preserved), with a current
user present. -/
theorem extendedFirstParam_injects_witness :
    lookupKey "fields"
        (extendedFirstParam callerArg0 (some (.jstr "u1")) (.jstr "F")
          (.jstr "I")) = some (.jstr "F")
    ∧ lookupKey "userId"
        (extendedFirstParam callerArg0 (some (.jstr "u1")) (.jstr "F")
          (.jstr "I")) = some (.jstr "u1")
    ∧ lookupKey "ids"
        (extendedFirstParam callerArg0 (some (.jstr "u1")) (.jstr "F")
          (.jstr "I")) = lookupKey "ids" callerArg0 :=
  ⟨(extendedFirstParam_injects callerArg0 (some (.jstr "u1")) (.jstr "F")
      (.jstr "I")).1,
   (extendedFirstParam_injects callerArg0 (some (.jstr "u1")) (.jstr "F")
      (.jstr "I")).2.2.2.2.1 (.jstr "u1") rfl,
   (extendedFirstParam_injects callerArg0 (some (.jstr "u1")) (.jstr "F")
      (.jstr "I")).2.2.2.2.2 "ids" (by decide) (by decide) (by decide)
      (by decide) (by decide)⟩

/-- C10: because `useApi` and `useBaseItem` merge options as
`{ ...ops, ...defaultOps }`, the frozen defaults are spread after the
caller's object: for every caller options object the effective options
carry the default values (`globalLoading = true`, `skipCache` equal to the
default `\x7b baseItem: false, request: false \x7d`), and every
caller-supplied value for these keys is discarded. -/
theorem caller_options_discarded (ops : Option JObj) :
    lookupKey "globalLoading" (mergedOps ops) = some (.jbool true)
    ∧ lookupKey "skipCache" (mergedOps ops) = some (.jobj skipCacheDefaults)
    ∧ effectiveSkipRequest ops = false
    ∧ effectiveSkipBaseItem ops = false := by
  cases ops with
  | none => exact ⟨rfl, rfl, rfl, rfl⟩
  | some o =>
    have hm : mergedOps (some o) =
        setKey (setKey o "globalLoading" (.jbool true)) "skipCache"
          (.jobj skipCacheDefaults) := rfl
    have h1 : lookupKey "globalLoading" (mergedOps (some o)) =
        some (.jbool true) := by
      rw [hm, lookupKey_setKey_other _ _ _ _ (by decide)]
      exact lookupKey_setKey_self _ _ _
    have h2 : lookupKey "skipCache" (mergedOps (some o)) =
        some (.jobj skipCacheDefaults) := by
      rw [hm]
      exact lookupKey_setKey_self _ _ _
    refine ⟨h1, h2, ?_, ?_⟩
    · unfold effectiveSkipRequest
      rw [h2]
      decide
    · unfold effectiveSkipBaseItem
      rw [h2]
      decide

end Apis
